import Mathlib

/-!
Verification of the communication layer of the ocp_vscode repository
(`src/ocp_vscode/comms.py`).

The development shallowly embeds the data model and operations of the source:
the JSON values exchanged with the viewer, the message codec (kind-tag
prefixing plus compact JSON serialization and parsing, modelling
`orjson.dumps` and `json.loads`), the default-serializer hook for foreign CAD
objects (`default`), the port-resolution algorithm (`find_port`,
`find_and_set_port`, `get_port`, `set_port`), the outbound transport (`_send`
and its wrappers), and the listener dispatcher (the body of `_listen`).

Machine-level caveats of the model: JSON numbers are integers (floating point
payloads are outside the model), byte strings are lists of characters, and
the network is abstracted by a liveness predicate plus a reply function.
-/

namespace Comms

/-- JSON values, the payloads exchanged with the viewer.  Numbers are
modelled as integers. -/
inductive Json where
  | null : Json
  | bool (b : Bool) : Json
  | num (n : Int) : Json
  | str (s : String) : Json
  | arr (elems : List Json) : Json
  | obj (fields : List (String × Json)) : Json

/-- Decimal digit character for a value below ten (values ten or above are
clamped; they never occur). -/
def digitChar (n : Nat) : Char :=
  match n with
  | 0 => '0'
  | 1 => '1'
  | 2 => '2'
  | 3 => '3'
  | 4 => '4'
  | 5 => '5'
  | 6 => '6'
  | 7 => '7'
  | 8 => '8'
  | _ => '9'

/-- Decimal representation of a natural number, most significant digit
first, as produced inside compact JSON output. -/
def natChars (n : Nat) : List Char :=
  if _h : n < 10 then [digitChar n]
  else natChars (n / 10) ++ [digitChar (n % 10)]
decreasing_by omega

/-- Decimal representation of an integer. -/
def intChars (n : Int) : List Char :=
  if n < 0 then '-' :: natChars n.natAbs else natChars n.toNat

/-- JSON string escaping of a single character: quotes and backslashes are
escaped with a backslash, all other characters pass through. -/
def escChar (c : Char) : List Char :=
  if c = '"' || c = '\\' then ['\\', c] else [c]

/-- JSON string escaping of a character sequence. -/
def escChars : List Char → List Char
  | [] => []
  | c :: cs => escChar c ++ escChars cs

mutual

/-- Compact JSON serialization of a value, modelling `orjson.dumps` (no
whitespace, separators are a comma and a colon). -/
def serVal (val : Json) : List Char :=
  match val with
  | .null => 'n' :: 'u' :: 'l' :: 'l' :: []
  | .bool true => 't' :: 'r' :: 'u' :: 'e' :: []
  | .bool false => 'f' :: 'a' :: 'l' :: 's' :: 'e' :: []
  | .num n => intChars n
  | .str s => '"' :: (escChars s.data ++ ['"'])
  | .arr [] => '[' :: ']' :: []
  | .arr (x :: xs) => '[' :: (serVal x ++ (serElemsTail xs ++ [']']))
  | .obj [] => '{' :: '}' :: []
  | .obj ((k, v) :: kvs) =>
      '{' :: '"' ::
        (escChars k.data ++ ('"' :: ':' :: (serVal v ++ (serFieldsTail kvs ++ ['}']))))

/-- Serialization of the remaining elements of a non-empty JSON array
(each preceded by a comma; the closing bracket is not included). -/
def serElemsTail (elems : List Json) : List Char :=
  match elems with
  | [] => []
  | x :: tl => ',' :: (serVal x ++ serElemsTail tl)

/-- Serialization of the remaining members of a non-empty JSON object
(each preceded by a comma; the closing brace is not included). -/
def serFieldsTail (fields : List (String × Json)) : List Char :=
  match fields with
  | [] => []
  | (k, v) :: tl =>
      ',' :: '"' :: (escChars k.data ++ ('"' :: ':' :: (serVal v ++ serFieldsTail tl)))

end

mutual

/-- Structural size of a JSON value, used as a fuel bound for the parser. -/
def sizeV (val : Json) : Nat :=
  match val with
  | .null | .bool _ | .num _ | .str _ => 1
  | .arr xs => 1 + sizeElems xs
  | .obj kvs => 1 + sizeFields kvs

/-- Structural size of a list of JSON array elements. -/
def sizeElems (elems : List Json) : Nat :=
  match elems with
  | [] => 0
  | x :: tl => 1 + sizeV x + sizeElems tl

/-- Structural size of a list of JSON object members. -/
def sizeFields (fields : List (String × Json)) : Nat :=
  match fields with
  | [] => 0
  | kv :: tl => 1 + sizeV kv.2 + sizeFields tl

end

/-- Parse the body of a JSON string after the opening quote: accumulate
characters up to the next unescaped quote, unescaping backslash pairs.
Returns the decoded characters and the remaining input. -/
def parseStrRaw : List Char → Option (List Char × List Char)
  | [] => none
  | c :: r =>
    if c = '"' then some ([], r)
    else if c = '\\' then
      match r with
      | [] => none
      | c2 :: r2 =>
        match parseStrRaw r2 with
        | some (s, rest) => some (c2 :: s, rest)
        | none => none
    else
      match parseStrRaw r with
      | some (s, rest) => some (c :: s, rest)
      | none => none

/-- Consume a maximal run of decimal digits, folding them onto an
accumulator.  Returns the value and the remaining input. -/
def parseNatAux : List Char → Nat → Nat × List Char
  | [], acc => (acc, [])
  | c :: r, acc =>
    if c.isDigit then parseNatAux r (acc * 10 + (c.toNat - 48)) else (acc, c :: r)

mutual

/-- Fuel-indexed parser for one compact JSON value, modelling `json.loads`
on the frames produced by `serVal`.  Returns the value and the unconsumed
input. -/
def parseVal : Nat → List Char → Option (Json × List Char)
  | 0, _ => none
  | _ + 1, [] => none
  | fuel + 1, c :: s =>
    if c = 'n' then
      match s with
      | 'u' :: 'l' :: 'l' :: more => some (.null, more)
      | _ => none
    else if c = 't' then
      match s with
      | 'r' :: 'u' :: 'e' :: more => some (.bool true, more)
      | _ => none
    else if c = 'f' then
      match s with
      | 'a' :: 'l' :: 's' :: 'e' :: more => some (.bool false, more)
      | _ => none
    else if c = '"' then
      match parseStrRaw s with
      | some (cs, r) => some (.str (String.mk cs), r)
      | none => none
    else if c = '[' then
      match s with
      | ']' :: r => some (.arr [], r)
      | _ =>
        match parseVal fuel s with
        | some (v, r) =>
          match parseElems fuel r with
          | some (vs, r2) => some (.arr (v :: vs), r2)
          | none => none
        | none => none
    else if c = '{' then
      match s with
      | '}' :: r => some (.obj [], r)
      | '"' :: s2 =>
        match parseStrRaw s2 with
        | some (k, ':' :: r) =>
          match parseVal fuel r with
          | some (v, r2) =>
            match parseFields fuel r2 with
            | some (kvs, r3) => some (.obj ((String.mk k, v) :: kvs), r3)
            | none => none
          | none => none
        | _ => none
      | _ => none
    else if c = '-' then
      match s with
      | d :: _ =>
        if d.isDigit then
          let p := parseNatAux s 0
          some (.num (-(p.1 : Int)), p.2)
        else none
      | [] => none
    else if c.isDigit then
      let p := parseNatAux (c :: s) 0
      some (.num (p.1 : Int), p.2)
    else none

/-- Parser for the continuation of a JSON array after its first element:
either a closing bracket, or a comma followed by an element. -/
def parseElems : Nat → List Char → Option (List Json × List Char)
  | 0, _ => none
  | _ + 1, ']' :: r => some ([], r)
  | fuel + 1, ',' :: s =>
    match parseVal fuel s with
    | some (v, r) =>
      match parseElems fuel r with
      | some (vs, r2) => some (v :: vs, r2)
      | none => none
    | none => none
  | _ + 1, _ => none

/-- Parser for the continuation of a JSON object after its first member:
either a closing brace, or a comma followed by a quoted key, a colon, and a
value. -/
def parseFields : Nat → List Char → Option (List (String × Json) × List Char)
  | 0, _ => none
  | _ + 1, '}' :: r => some ([], r)
  | fuel + 1, ',' :: '"' :: s =>
    match parseStrRaw s with
    | some (k, ':' :: r) =>
      match parseVal fuel r with
      | some (v, r2) =>
        match parseFields fuel r2 with
        | some (kvs, r3) => some ((String.mk k, v) :: kvs, r3)
        | none => none
      | none => none
    | _ => none
  | _ + 1, _ => none

end

/-- Characterizes a remainder that can legally follow a serialized number:
empty input or a non-digit first character (inside frames this is a comma,
a closing bracket, or a closing brace). -/
def restOk (s : List Char) : Bool :=
  match s with
  | [] => true
  | c :: _ => !c.isDigit

/-- Full parse of one frame body, modelling `json.loads`: the entire input
must be consumed by a single JSON value. -/
def loads (s : List Char) : Option Json :=
  match parseVal (s.length + 1) s with
  | some (v, []) => some v
  | _ => none

mutual

/-- Decidable equality of JSON values, modelling the Python `==`
comparison used in the status-delta computation of the dispatcher. -/
def Json.decEq : (a b : Json) → Decidable (a = b)
  | .null, .null => isTrue rfl
  | .bool a, .bool b =>
    if h : a = b then isTrue (by rw [h]) else isFalse (fun hh => h (by cases hh; rfl))
  | .num a, .num b =>
    if h : a = b then isTrue (by rw [h]) else isFalse (fun hh => h (by cases hh; rfl))
  | .str a, .str b =>
    if h : a = b then isTrue (by rw [h]) else isFalse (fun hh => h (by cases hh; rfl))
  | .arr a, .arr b =>
    match Json.decEqList a b with
    | isTrue h => isTrue (by rw [h])
    | isFalse h => isFalse (fun hh => h (by cases hh; rfl))
  | .obj a, .obj b =>
    match Json.decEqFields a b with
    | isTrue h => isTrue (by rw [h])
    | isFalse h => isFalse (fun hh => h (by cases hh; rfl))
  | .null, .bool _ => isFalse (fun h => Json.noConfusion h)
  | .null, .num _ => isFalse (fun h => Json.noConfusion h)
  | .null, .str _ => isFalse (fun h => Json.noConfusion h)
  | .null, .arr _ => isFalse (fun h => Json.noConfusion h)
  | .null, .obj _ => isFalse (fun h => Json.noConfusion h)
  | .bool _, .null => isFalse (fun h => Json.noConfusion h)
  | .bool _, .num _ => isFalse (fun h => Json.noConfusion h)
  | .bool _, .str _ => isFalse (fun h => Json.noConfusion h)
  | .bool _, .arr _ => isFalse (fun h => Json.noConfusion h)
  | .bool _, .obj _ => isFalse (fun h => Json.noConfusion h)
  | .num _, .null => isFalse (fun h => Json.noConfusion h)
  | .num _, .bool _ => isFalse (fun h => Json.noConfusion h)
  | .num _, .str _ => isFalse (fun h => Json.noConfusion h)
  | .num _, .arr _ => isFalse (fun h => Json.noConfusion h)
  | .num _, .obj _ => isFalse (fun h => Json.noConfusion h)
  | .str _, .null => isFalse (fun h => Json.noConfusion h)
  | .str _, .bool _ => isFalse (fun h => Json.noConfusion h)
  | .str _, .num _ => isFalse (fun h => Json.noConfusion h)
  | .str _, .arr _ => isFalse (fun h => Json.noConfusion h)
  | .str _, .obj _ => isFalse (fun h => Json.noConfusion h)
  | .arr _, .null => isFalse (fun h => Json.noConfusion h)
  | .arr _, .bool _ => isFalse (fun h => Json.noConfusion h)
  | .arr _, .num _ => isFalse (fun h => Json.noConfusion h)
  | .arr _, .str _ => isFalse (fun h => Json.noConfusion h)
  | .arr _, .obj _ => isFalse (fun h => Json.noConfusion h)
  | .obj _, .null => isFalse (fun h => Json.noConfusion h)
  | .obj _, .bool _ => isFalse (fun h => Json.noConfusion h)
  | .obj _, .num _ => isFalse (fun h => Json.noConfusion h)
  | .obj _, .str _ => isFalse (fun h => Json.noConfusion h)
  | .obj _, .arr _ => isFalse (fun h => Json.noConfusion h)

/-- Decidable equality of lists of JSON values. -/
def Json.decEqList : (a b : List Json) → Decidable (a = b)
  | [], [] => isTrue rfl
  | [], _ :: _ => isFalse (fun h => List.noConfusion h)
  | _ :: _, [] => isFalse (fun h => List.noConfusion h)
  | x :: xs, y :: ys =>
    match Json.decEq x y with
    | isFalse h => isFalse (fun hh => h (by cases hh; rfl))
    | isTrue h1 =>
      match Json.decEqList xs ys with
      | isTrue h2 => isTrue (by rw [h1, h2])
      | isFalse h2 => isFalse (fun hh => h2 (by cases hh; rfl))

/-- Decidable equality of JSON object field lists. -/
def Json.decEqFields : (a b : List (String × Json)) → Decidable (a = b)
  | [], [] => isTrue rfl
  | [], _ :: _ => isFalse (fun h => List.noConfusion h)
  | _ :: _, [] => isFalse (fun h => List.noConfusion h)
  | (k1, v1) :: xs, (k2, v2) :: ys =>
    if hk : k1 = k2 then
      match Json.decEq v1 v2 with
      | isFalse h => isFalse (fun hh => h (by cases hh; rfl))
      | isTrue h1 =>
        match Json.decEqFields xs ys with
        | isTrue h2 => isTrue (by rw [hk, h1, h2])
        | isFalse h2 => isFalse (fun hh => h2 (by cases hh; rfl))
    else isFalse (fun hh => hk (by cases hh; rfl))

end

instance : DecidableEq Json := Json.decEq

/-- Message types of the protocol, mirroring the `MessageType` IntEnum. -/
inductive MessageType where
  | DATA
  | COMMAND
  | UPDATES
  | LISTEN
  | BACKEND
  | BACKEND_RESPONSE
  | CONFIG
  deriving DecidableEq

/-- Numeric value of each message type, as in the Python IntEnum. -/
def MessageType.val : MessageType → Nat
  | .DATA => 1
  | .COMMAND => 2
  | .UPDATES => 3
  | .LISTEN => 4
  | .BACKEND => 5
  | .BACKEND_RESPONSE => 6
  | .CONFIG => 7

/-- Kind-tag prefixing of an encoded JSON body, mirroring the if/elif chain
in `_send` (lines 111-122 of comms.py).  Message types outside the six
listed kinds fall through the chain and the body is left untagged. -/
def encodeFrame (message_type : MessageType) (j : List Char) : List Char :=
  if message_type = MessageType.COMMAND then 'C' :: ':' :: j
  else if message_type = MessageType.DATA then 'D' :: ':' :: j
  else if message_type = MessageType.LISTEN then 'L' :: ':' :: j
  else if message_type = MessageType.BACKEND then 'B' :: ':' :: j
  else if message_type = MessageType.BACKEND_RESPONSE then 'R' :: ':' :: j
  else if message_type = MessageType.CONFIG then 'S' :: ':' :: j
  else j

/-- Whether a message type is one of the six kinds that receive a one-byte
kind tag plus a colon in `_send`. -/
def taggedKind : MessageType → Bool
  | .DATA => true
  | .COMMAND => true
  | .LISTEN => true
  | .BACKEND => true
  | .BACKEND_RESPONSE => true
  | .CONFIG => true
  | .UPDATES => false

/-- Foreign Python objects that can appear inside a payload and are handed
to the `default` hook by the JSON encoder.  A shape carries the bytes that
the external collaborator function `serialize` would produce for it; a
location carries the translation/quaternion components that `loc_to_tq`
would produce. -/
inductive PyObj where
  | topods_shape (bytes : List Nat)
  | toploc_location (trans : List Int) (quat : List Int)
  | enum_member (value : Int)
  | unknown (type_name : String)

/-- Predicate from ocp_tessellate: recognizes TopoDS shapes. -/
def is_topods_shape : PyObj → Bool
  | .topods_shape _ => true
  | _ => false

/-- Predicate from ocp_tessellate: recognizes TopLoc locations. -/
def is_toploc_location : PyObj → Bool
  | .toploc_location _ _ => true
  | _ => false

/-- Python `isinstance(obj, enum.Enum)` check on a foreign object. -/
def is_enum : PyObj → Bool
  | .enum_member _ => true
  | _ => false

/-- External collaborator `serialize`: the binary blob of a shape (the
model carries the bytes on the object itself). -/
def serialize : PyObj → List Nat
  | .topods_shape bs => bs
  | _ => []

/-- External collaborator `loc_to_tq`: translation and quaternion of a
location as a pair of JSON arrays. -/
def loc_to_tq : PyObj → Json
  | .toploc_location t q => .arr [.arr (t.map .num), .arr (q.map .num)]
  | _ => .null

/-- The `value` attribute of an enum member. -/
def enum_value : PyObj → Int
  | .enum_member v => v
  | _ => 0

/-- Python type name of a foreign object, used in the error message of the
`default` hook. -/
def py_type_name : PyObj → String
  | .topods_shape _ => "TopoDS_Shape"
  | .toploc_location _ _ => "TopLoc_Location"
  | .enum_member _ => "Enum"
  | .unknown n => n

/-- Base64 alphabet. -/
def b64chars : List Char :=
  "ABCDEFGHIJKLMNOPQRSTUVWXYZabcdefghijklmnopqrstuvwxyz0123456789+/".data

/-- One base64 alphabet character. -/
def b64char (i : Nat) : Char := b64chars.getD i 'A'

/-- Standard base64 encoding of a byte sequence, modelling
`base64.b64encode(...).decode("utf-8")`. -/
def b64encode : List Nat → List Char
  | [] => []
  | [a] => [b64char (a / 4), b64char (a % 4 * 16), '=', '=']
  | [a, b] => [b64char (a / 4), b64char (a % 4 * 16 + b / 16), b64char (b % 16 * 4), '=']
  | a :: b :: c :: rest =>
      b64char (a / 4) :: b64char (a % 4 * 16 + b / 16) ::
        b64char (b % 16 * 4 + c / 64) :: b64char (c % 64) :: b64encode rest

/-- Default JSON serializer hook (`default` in comms.py, lines 74-83):
shapes become base64 strings, locations become translation/quaternion
tuples, enum members reduce to their value, and any other object raises a
`TypeError`, modelled as an `Except.error`. -/
def default (obj : PyObj) : Except String Json :=
  if is_topods_shape obj then .ok (.str (String.mk (b64encode (serialize obj))))
  else if is_toploc_location obj then .ok (loc_to_tq obj)
  else if is_enum obj then .ok (.num (enum_value obj))
  else .error ("Object of type " ++ py_type_name obj ++ " is not JSON serializable")

/-- Payloads handed to `_send`: JSON-like trees whose leaves may also be
foreign Python objects that only the `default` hook can serialize. -/
inductive Payload where
  | null
  | bool (b : Bool)
  | int (n : Int)
  | str (s : String)
  | list (elems : List Payload)
  | dict (fields : List (String × Payload))
  | pyobj (o : PyObj)

mutual

/-- JSON encoding of a payload, modelling the traversal done by
`orjson.dumps(data, default=default)`: native values encode directly and
foreign objects go through the `default` hook; the first failure of the
hook aborts the whole encoding (a raised `TypeError`). -/
def toJson : Payload → Except String Json
  | .null => .ok .null
  | .bool b => .ok (.bool b)
  | .int n => .ok (.num n)
  | .str s => .ok (.str s)
  | .list xs =>
    match toJsonList xs with
    | .error e => .error e
    | .ok js => .ok (.arr js)
  | .dict kvs =>
    match toJsonFields kvs with
    | .error e => .error e
    | .ok fs => .ok (.obj fs)
  | .pyobj o => default o

/-- JSON encoding of a list of payloads. -/
def toJsonList : List Payload → Except String (List Json)
  | [] => .ok []
  | x :: xs =>
    match toJson x with
    | .error e => .error e
    | .ok j =>
      match toJsonList xs with
      | .error e => .error e
      | .ok js => .ok (j :: js)

/-- JSON encoding of the fields of a payload dictionary. -/
def toJsonFields : List (String × Payload) → Except String (List (String × Json))
  | [] => .ok []
  | (k, v) :: kvs =>
    match toJson v with
    | .error e => .error e
    | .ok j =>
      match toJsonFields kvs with
      | .error e => .error e
      | .ok fs => .ok ((k, j) :: fs)

end

/-- Whole-payload serialization: `orjson.dumps(data, default=default)`,
producing the compact JSON bytes or a serialization error. -/
def dumps (data : Payload) : Except String (List Char) :=
  match toJson data with
  | .error e => .error e
  | .ok j => .ok (serVal j)

mutual

/-- Whether a payload contains a foreign object of a type that the
`default` hook does not recognize. -/
def hasUnknown : Payload → Bool
  | .pyobj (.unknown _) => true
  | .pyobj _ => false
  | .list xs => hasUnknownList xs
  | .dict kvs => hasUnknownFields kvs
  | _ => false

/-- Whether a list of payloads contains an unrecognized foreign object. -/
def hasUnknownList : List Payload → Bool
  | [] => false
  | x :: xs => hasUnknown x || hasUnknownList xs

/-- Whether the fields of a payload dictionary contain an unrecognized
foreign object. -/
def hasUnknownFields : List (String × Payload) → Bool
  | [] => false
  | (_, v) :: kvs => hasUnknown v || hasUnknownFields kvs

end

/-- Whether an encoding attempt failed. -/
def exErr {ε α : Type} : Except ε α → Bool
  | .error _ => true
  | .ok _ => false

/-- Abstraction of the local network: which ports accept a connection (this
covers both the `port_check` probe and the websocket `connect`/`send`
succeeding), and the reply frame the viewer returns on a given port for a
given sent frame. -/
structure Network where
  connectOk : Nat → Bool
  reply : Nat → List Char → List Char

/-- One entry of the on-disk State Store (`.ocpvscode`): the workspace
roots recorded for a port.  Paths are modelled as component lists. -/
structure StoreEntry where
  roots : List (List String)

/-- The process environment of a resolution attempt: the `OCP_PORT`
environment variable (0 when unset, as in `int(os.environ.get("OCP_PORT",
"0"))`), the current working directory, the State Store contents in store
iteration order, and the liveness of each port as observed by
`port_check`. -/
structure Env where
  OCP_PORT : Nat
  cwd : List String
  store : List (Nat × StoreEntry)
  alive : Nat → Bool

/-- The process-wide mutable state of comms.py: the cached port `CMD_PORT`
and the `INIT_DONE` flag. -/
structure CommsState where
  CMD_PORT : Nat
  INIT_DONE : Bool
  deriving DecidableEq

/-- The state at import time: `CMD_PORT = 3939`, `INIT_DONE = False`. -/
def initialState : CommsState := ⟨3939, false⟩

/-- Configuration errors raised by `find_port` (as `RuntimeError`). -/
inductive ConfigErr where
  | noPort
  | multiplePorts (ports : List Nat)
  deriving DecidableEq

/-- The error message carried by each configuration error, mirroring the
`RuntimeError` strings of `find_port`. -/
def ConfigErr.message : ConfigErr → String
  | .noPort =>
      "No port found via config file\nTo change the port, use set_port(port) in your code"
  | .multiplePorts ports =>
      "\nMultiple ports found (" ++ String.intercalate ", " (ports.map toString) ++
        ") and the file is outside of any\nworkspace folder of this VS Code instance:\n" ++
        "The right viewer cannot be auto detected, use set_port(port) in your code."

/-- Python `Path.cwd().is_relative_to(Path(root))` on component lists: the
root is a prefix of the current directory. -/
def is_relative_to (current root : List String) : Bool :=
  root.isPrefixOf current

/-- Whether one store entry is selected by the root scan of `find_port`:
its port is alive and the current directory is a descendant of one of its
workspace roots. -/
def matchesRoot (e : Env) (entry : Nat × StoreEntry) : Bool :=
  e.alive entry.1 && entry.2.roots.any (fun root => is_relative_to e.cwd root)

/-- The entry loop of `find_port` (lines 224-234 of comms.py): stale
entries are skipped (and deleted from the store, a side effect not modelled
here); for an alive entry whose roots contain the current directory the
`port` variable is assigned and only the inner `for root` loop is exited,
so iteration over the remaining entries continues. -/
def findPortLoop (e : Env) : List (Nat × StoreEntry) → Option Nat → Option Nat
  | [], port => port
  | (p, state) :: rest, port =>
    if e.alive p then
      if state.roots.any (fun root => is_relative_to e.cwd root) then
        findPortLoop e rest (some p)
      else findPortLoop e rest port
    else findPortLoop e rest port

/-- The alive ports of the store snapshot, re-probed by the fallback list
comprehension of `find_port` (line 236). -/
def aliveCandidates (e : Env) : List Nat :=
  (e.store.filter (fun ps => e.alive ps.1)).map (fun ps => ps.1)

/-- The inner `find_port` of `find_and_set_port` (lines 220-251): the root
scan over the store snapshot, then the fallback on the alive ports. -/
def find_port (e : Env) : Except ConfigErr Nat :=
  match findPortLoop e e.store none with
  | some p => .ok p
  | none =>
    match aliveCandidates e with
    | [p] => .ok p
    | [] => .error .noPort
    | ports => .error (.multiplePorts ports)

/-- The `set_port` function (lines 94-98): store the port and mark the
state initialized. -/
def set_port (port : Nat) (_st : CommsState) : CommsState := ⟨port, true⟩

/-- The `find_and_set_port` function (lines 217-261): a positive `OCP_PORT`
environment override wins without any liveness check, otherwise the store
is consulted via `find_port`; the result is stored via `set_port`. -/
def find_and_set_port (e : Env) (st : CommsState) : Except ConfigErr CommsState :=
  if e.OCP_PORT > 0 then .ok (set_port e.OCP_PORT st)
  else
    match find_port e with
    | .error err => .error err
    | .ok p => .ok (set_port p st)

/-- The `get_port` function (lines 86-91): resolve on first use, then
return the cached `CMD_PORT`. -/
def get_port (e : Env) (st : CommsState) : Except ConfigErr (CommsState × Nat) :=
  if st.INIT_DONE then .ok (st, st.CMD_PORT)
  else
    match find_and_set_port e st with
    | .error err => .error err
    | .ok st2 => .ok (st2, st2.CMD_PORT)

/-- The body of the `try` block of `_send` for a resolved port (lines
108-146): serialize (a serialization failure is caught by the outer
handler and yields a null result), tag the frame, connect and send (a
failure yields a null result), and for the COMMAND kind only, receive one
reply frame and parse it as JSON (a parse failure is caught by the inner
handler, leaving the null result). -/
def sendWithPort (net : Network) (data : Payload) (message_type : MessageType)
    (port : Nat) : Option Json :=
  match dumps data with
  | .error _ => none
  | .ok j =>
    let frame := encodeFrame message_type j
    if net.connectOk port then
      if message_type = MessageType.COMMAND then loads (net.reply port frame)
      else none
    else none

/-- The `_send` function (lines 101-146).  Port resolution happens before
the `try` block, so a configuration error propagates to the caller, while
everything inside the `try` block is converted to a null result. -/
def _send (e : Env) (net : Network) (st : CommsState) (data : Payload)
    (message_type : MessageType) (port : Option Nat) :
    Except ConfigErr (CommsState × Option Json) :=
  match port with
  | some p => .ok (st, sendWithPort net data message_type p)
  | none =>
    if st.INIT_DONE then .ok (st, sendWithPort net data message_type st.CMD_PORT)
    else
      match find_and_set_port e st with
      | .error err => .error err
      | .ok st2 => .ok (st2, sendWithPort net data message_type st2.CMD_PORT)

/-- The `send_data` wrapper (lines 149-151). -/
def send_data (e : Env) (net : Network) (st : CommsState) (data : Payload)
    (port : Option Nat) : Except ConfigErr (CommsState × Option Json) :=
  _send e net st data MessageType.DATA port

/-- The `send_config` wrapper (lines 154-156). -/
def send_config (e : Env) (net : Network) (st : CommsState) (config : Payload)
    (port : Option Nat) : Except ConfigErr (CommsState × Option Json) :=
  _send e net st config MessageType.CONFIG port

/-- The `send_command` wrapper (lines 159-161). -/
def send_command (e : Env) (net : Network) (st : CommsState) (data : Payload)
    (port : Option Nat) : Except ConfigErr (CommsState × Option Json) :=
  _send e net st data MessageType.COMMAND port

/-- The `send_backend` wrapper (lines 164-166). -/
def send_backend (e : Env) (net : Network) (st : CommsState) (data : Payload)
    (port : Option Nat) : Except ConfigErr (CommsState × Option Json) :=
  _send e net st data MessageType.BACKEND port

/-- The `send_response` wrapper (lines 169-171). -/
def send_response (e : Env) (net : Network) (st : CommsState) (data : Payload)
    (port : Option Nat) : Except ConfigErr (CommsState × Option Json) :=
  _send e net st data MessageType.BACKEND_RESPONSE port

/-- What the listener does when it starts (lines 186-189 of comms.py): the
port connected to, the `max_size` passed to `connect`, and the raw
registration frame sent immediately afterwards. -/
structure ListenStart where
  port : Nat
  max_size : Nat
  regFrame : List Char
  deriving DecidableEq

/-- Startup of `_listen`: it connects to the current `CMD_PORT` (no port
resolution is performed), with `max_size=2**28`, and sends the raw bytes
`L:register`. -/
def listenStart (st : CommsState) : ListenStart :=
  ⟨st.CMD_PORT, 2 ^ 28, 'L' :: ':' :: "register".data⟩

/-- Status delta computed by the dispatcher (lines 202-206): a key of the
new snapshot is kept exactly when it is absent from the previous snapshot
or mapped to a different value. -/
def statusDelta (last_config changes : List (String × Json)) : List (String × Json) :=
  changes.filter (fun kv => !(decide (List.lookup kv.1 last_config = some kv.2)))

/-- One iteration of the dispatch loop of `_listen` on a parsed message
(lines 196-208): a message containing a "model" key triggers the callback
with the model payload and kind DATA; independently, a message whose
"command" field is "status" triggers the callback with the status delta and
kind UPDATES and replaces the stored snapshot with the full new snapshot.
Returns the emitted callback invocations in order, together with the new
snapshot; `none` models an exception escaping the iteration (a status
message without a usable "text" mapping), which terminates the loop. -/
def processMessage (message : List (String × Json)) (last_config : List (String × Json)) :
    Option (List (Json × MessageType) × List (String × Json)) :=
  let modelEvents :=
    match List.lookup "model" message with
    | some m => [(m, MessageType.DATA)]
    | none => []
  if List.lookup "command" message = some (Json.str "status") then
    match List.lookup "text" message with
    | some (Json.obj changes) =>
        some (modelEvents ++ [(Json.obj (statusDelta last_config changes),
          MessageType.UPDATES)], changes)
    | _ => none
  else some (modelEvents, last_config)

/-- A trivial environment: no override, empty store, nothing alive. -/
def envNone : Env := ⟨0, [], [], fun _ => false⟩

/-- An environment whose only relevant content is the OCP_PORT=7777
override. -/
def envOverride : Env := ⟨7777, [], [], fun _ => false⟩

/-- A network with no listener on any port. -/
def netDead : Network := ⟨fun _ => false, fun _ _ => []⟩

/-- A network accepting connections on every port, with empty replies. -/
def netLive : Network := ⟨fun _ => true, fun _ _ => []⟩

/-- A network accepting connections on every port and always replying with
the frame of the JSON object mapping "ok" to true. -/
def netOk : Network := ⟨fun _ => true, fun _ _ => serVal (Json.obj [("ok", Json.bool true)])⟩

/-- A state whose port has already been resolved (to the default 3939). -/
def readyState : CommsState := ⟨3939, true⟩

/-- A payload whose dictionary contains a foreign object of a type the
default hook does not recognize. -/
def badPayload : Payload := Payload.dict [("model", Payload.pyobj (PyObj.unknown "Workplane"))]

/-- First store entry of the double-match scenario: port 1111, root `w`. -/
def entryA : Nat × StoreEntry := (1111, ⟨[["w"]]⟩)

/-- Second store entry of the double-match scenario: port 2222, root `w`. -/
def entryB : Nat × StoreEntry := (2222, ⟨[["w"]]⟩)

/-- Environment with two alive entries whose roots both contain the current
working directory `w/a`. -/
def envTwoMatches : Env := ⟨0, ["w", "a"], [entryA, entryB], fun _ => true⟩

/-- Environment with one store entry, alive, and no matching root. -/
def envOneAlive : Env := ⟨0, ["q"], [(4040, ⟨[]⟩)], fun _ => true⟩

/-- Environment with one store entry, dead, and no matching root. -/
def envZeroAlive : Env := ⟨0, ["q"], [(4040, ⟨[]⟩)], fun _ => false⟩

/-- Environment with two alive entries and no matching roots. -/
def envTwoAlive : Env := ⟨0, ["q"], [(4040, ⟨[]⟩), (5050, ⟨[]⟩)], fun _ => true⟩

/-- Previous status snapshot of the worked example. -/
def lastEx : List (String × Json) := [("a", Json.num 1), ("b", Json.num 2)]

/-- New status snapshot of the worked example. -/
def changesEx : List (String × Json) :=
  [("a", Json.num 1), ("b", Json.num 3), ("c", Json.num 4)]

/-- A status message carrying the example snapshot and no model. -/
def msgStatus : List (String × Json) :=
  [("command", Json.str "status"), ("text", Json.obj changesEx)]

/-- A message that both carries a model and is a status command. -/
def msgBoth : List (String × Json) :=
  [("model", Json.num 5), ("command", Json.str "status"),
   ("text", Json.obj [("k", Json.num 1)])]

/-- Example JSON payload exercising nesting, escapes and negatives. -/
def jsonEx : Json :=
  Json.obj [("a", Json.arr [Json.num (-3), Json.null, Json.str "x\"y"]),
    ("b", Json.bool true)]

theorem sizeV_pos (v : Json) : 1 ≤ sizeV v := by
  cases v <;> simp [sizeV]

theorem digitChar_isDigit (n : Nat) : (digitChar n).isDigit = true := by
  unfold digitChar
  split <;> decide

theorem digitChar_toNat (n : Nat) (h : n < 10) : (digitChar n).toNat - 48 = n := by
  interval_cases n <;> decide

theorem natChars_ne_nil (n : Nat) : natChars n ≠ [] := by
  rw [natChars]
  split <;> simp

theorem natChars_digits (n : Nat) : ∀ c ∈ natChars n, c.isDigit = true := by
  induction n using Nat.strong_induction_on with
  | _ n ih =>
    rw [natChars]
    split
    · intro c hc
      rw [List.mem_singleton] at hc
      subst hc
      exact digitChar_isDigit n
    · intro c hc
      rw [List.mem_append] at hc
      rcases hc with h1 | h2
      · exact ih (n / 10) (by omega) c h1
      · rw [List.mem_singleton] at h2
        subst h2
        exact digitChar_isDigit _

theorem natChars_head (n : Nat) : ∃ c cs, natChars n = c :: cs ∧ c.isDigit = true := by
  cases h : natChars n with
  | nil => exact absurd h (natChars_ne_nil n)
  | cons c cs =>
    exact ⟨c, cs, rfl, natChars_digits n c (by rw [h]; exact List.mem_cons_self c cs)⟩

theorem parseNatAux_append (n : Nat) : ∀ (rest : List Char) (acc : Nat),
    parseNatAux (natChars n ++ rest) acc =
      parseNatAux rest (acc * 10 ^ (natChars n).length + n) := by
  induction n using Nat.strong_induction_on with
  | _ n ih =>
    intro rest acc
    rw [natChars]
    split
    · rename_i h
      simp [parseNatAux, digitChar_isDigit, digitChar_toNat n h]
    · rename_i h
      have hrec := ih (n / 10) (by omega) (digitChar (n % 10) :: rest) acc
      rw [List.append_assoc, List.singleton_append, hrec]
      have hd : (digitChar (n % 10)).isDigit = true := digitChar_isDigit _
      have ht : (digitChar (n % 10)).toNat - 48 = n % 10 := digitChar_toNat _ (by omega)
      simp only [parseNatAux, hd, if_pos, ht, List.length_append, List.length_singleton]
      congr 1
      have h10 : n / 10 * 10 + n % 10 = n := by omega
      calc (acc * 10 ^ (natChars (n / 10)).length + n / 10) * 10 + n % 10
          = acc * (10 ^ (natChars (n / 10)).length * 10) + (n / 10 * 10 + n % 10) := by ring
        _ = acc * 10 ^ ((natChars (n / 10)).length + 1) + n := by rw [h10, pow_succ]

theorem parseNatAux_stop (rest : List Char) (acc : Nat) (h : restOk rest = true) :
    parseNatAux rest acc = (acc, rest) := by
  cases rest with
  | nil => rfl
  | cons c r =>
    simp only [restOk, Bool.not_eq_true'] at h
    simp [parseNatAux, h]

theorem parseNat_natChars (n : Nat) (rest : List Char) (h : restOk rest = true) :
    parseNatAux (natChars n ++ rest) 0 = (n, rest) := by
  rw [parseNatAux_append, parseNatAux_stop rest _ h]
  simp

theorem parseStrRaw_esc (s rest : List Char) :
    parseStrRaw (escChars s ++ ('"' :: rest)) = some (s, rest) := by
  induction s with
  | nil =>
    simp only [escChars, List.nil_append]
    rw [parseStrRaw.eq_def]
    simp
  | cons c cs ih =>
    by_cases h1 : c = '"'
    · subst h1
      simp [escChars, escChar, parseStrRaw, ih]
    · by_cases h2 : c = '\\'
      · subst h2
        simp [escChars, escChar, parseStrRaw, ih]
      · have he : escChar c = [c] := by simp [escChar, h1, h2]
        simp only [escChars, he, List.singleton_append, List.cons_append]
        rw [parseStrRaw.eq_def]
        simp [h1, h2, ih]

theorem parseVal_digit_head (f : Nat) (c : Char) (s : List Char) (h : c.isDigit = true) :
    parseVal (f + 1) (c :: s) =
      some (.num ((parseNatAux (c :: s) 0).1 : Int), (parseNatAux (c :: s) 0).2) := by
  have h1 : c ≠ 'n' := by rintro rfl; exact absurd h (by decide)
  have h2 : c ≠ 't' := by rintro rfl; exact absurd h (by decide)
  have h3 : c ≠ 'f' := by rintro rfl; exact absurd h (by decide)
  have h4 : c ≠ '"' := by rintro rfl; exact absurd h (by decide)
  have h5 : c ≠ '[' := by rintro rfl; exact absurd h (by decide)
  have h6 : c ≠ '{' := by rintro rfl; exact absurd h (by decide)
  have h7 : c ≠ '-' := by rintro rfl; exact absurd h (by decide)
  simp [parseVal, h1, h2, h3, h4, h5, h6, h7, h]

theorem serVal_head_ne (v : Json) : ∃ c cs, serVal v = c :: cs ∧ c ≠ ']' := by
  cases v with
  | null => exact ⟨'n', _, rfl, by decide⟩
  | bool b => cases b
              · exact ⟨'f', _, rfl, by decide⟩
              · exact ⟨'t', _, rfl, by decide⟩
  | str s =>
    refine ⟨'"', _, rfl, ?_⟩
    decide
  | arr xs =>
    cases xs with
    | nil => exact ⟨'[', _, rfl, by decide⟩
    | cons x xs => exact ⟨'[', _, rfl, by decide⟩
  | obj kvs =>
    cases kvs with
    | nil => exact ⟨'{', _, rfl, by decide⟩
    | cons kv kvs =>
      obtain ⟨k, v⟩ := kv
      exact ⟨'{', _, rfl, by decide⟩
  | num n =>
    show ∃ c cs, intChars n = c :: cs ∧ c ≠ ']'
    unfold intChars
    split
    · exact ⟨'-', _, rfl, by decide⟩
    · obtain ⟨c, cs, hc, hd⟩ := natChars_head n.toNat
      exact ⟨c, cs, hc, by rintro rfl; exact absurd hd (by decide)⟩

theorem restOk_elems (xs : List Json) (rest : List Char) :
    restOk (serElemsTail xs ++ (']' :: rest)) = true := by
  cases xs <;> simp [serElemsTail, restOk]

theorem restOk_fields (kvs : List (String × Json)) (rest : List Char) :
    restOk (serFieldsTail kvs ++ ('}' :: rest)) = true := by
  cases kvs with
  | nil => simp [serFieldsTail, restOk]
  | cons kv kvs =>
    obtain ⟨k, v⟩ := kv
    simp [serFieldsTail, restOk]

mutual

theorem parseVal_ser (v : Json) (fuel : Nat) (rest : List Char)
    (hfuel : sizeV v ≤ fuel) (hrest : restOk rest = true) :
    parseVal fuel (serVal v ++ rest) = some (v, rest) := by
  obtain ⟨f, rfl⟩ : ∃ f, fuel = f + 1 := ⟨fuel - 1, by have := sizeV_pos v; omega⟩
  cases v with
  | null => simp [serVal, parseVal]
  | bool b => cases b <;> simp [serVal, parseVal]
  | str s =>
    show parseVal (f + 1) (('"' :: (escChars s.data ++ ['"'])) ++ rest) = _
    have : ('"' :: (escChars s.data ++ ['"'])) ++ rest =
        '"' :: (escChars s.data ++ ('"' :: rest)) := by simp
    rw [this]
    simp [parseVal, parseStrRaw_esc]
  | num n =>
    show parseVal (f + 1) (intChars n ++ rest) = _
    by_cases hn : n < 0
    · have h1 : intChars n = '-' :: natChars n.natAbs := by simp [intChars, hn]
      obtain ⟨c, cs, hc, hd⟩ := natChars_head n.natAbs
      rw [h1, hc]
      show parseVal (f + 1) ('-' :: c :: (cs ++ rest)) = _
      have hstep : parseVal (f + 1) ('-' :: c :: (cs ++ rest)) =
          some (.num (-((parseNatAux (c :: (cs ++ rest)) 0).1 : Int)),
            (parseNatAux (c :: (cs ++ rest)) 0).2) := by
        simp [parseVal, hd]
      rw [hstep]
      have : c :: (cs ++ rest) = natChars n.natAbs ++ rest := by rw [hc]; simp
      rw [this, parseNat_natChars _ _ hrest]
      have hval : -((n.natAbs : Nat) : Int) = n := by omega
      rw [hval]
    · have h1 : intChars n = natChars n.toNat := by simp [intChars, hn]
      obtain ⟨c, cs, hc, hd⟩ := natChars_head n.toNat
      rw [h1, hc]
      show parseVal (f + 1) (c :: (cs ++ rest)) = _
      rw [parseVal_digit_head f c _ hd]
      have : c :: (cs ++ rest) = natChars n.toNat ++ rest := by rw [hc]; simp
      rw [this, parseNat_natChars _ _ hrest]
      have hval : ((n.toNat : Nat) : Int) = n := by omega
      rw [hval]
  | arr xs =>
    cases xs with
    | nil =>
      show parseVal (f + 1) ((['[', ']']) ++ rest) = _
      simp [parseVal]
    | cons x xs =>
      show parseVal (f + 1) (('[' :: (serVal x ++ (serElemsTail xs ++ [']']))) ++ rest) = _
      have hre : ('[' :: (serVal x ++ (serElemsTail xs ++ [']']))) ++ rest =
          '[' :: (serVal x ++ (serElemsTail xs ++ (']' :: rest))) := by simp
      rw [hre]
      obtain ⟨c, cs, hc, hcne⟩ := serVal_head_ne x
      have hsz : sizeV (Json.arr (x :: xs)) = 2 + sizeV x + sizeElems xs := by
        simp [sizeV, sizeElems]; omega
      have hszx : 1 ≤ sizeV x := sizeV_pos x
      have hx : parseVal f (serVal x ++ (serElemsTail xs ++ (']' :: rest))) =
          some (x, serElemsTail xs ++ (']' :: rest)) :=
        parseVal_ser x f _ (by omega) (restOk_elems xs rest)
      have hxs : parseElems f (serElemsTail xs ++ (']' :: rest)) = some (xs, rest) :=
        parseElems_ser xs f rest (by omega) hrest
      rw [hc] at hx ⊢
      show parseVal (f + 1) ('[' :: (c :: cs ++ (serElemsTail xs ++ (']' :: rest)))) = _
      simp only [List.cons_append] at hx ⊢
      simp [parseVal, hcne, hx, hxs]
  | obj kvs =>
    cases kvs with
    | nil =>
      show parseVal (f + 1) ((['{', '}']) ++ rest) = _
      simp [parseVal]
    | cons kv kvs =>
      obtain ⟨k, v⟩ := kv
      show parseVal (f + 1)
          (('{' :: '"' ::
              (escChars k.data ++ ('"' :: ':' :: (serVal v ++ (serFieldsTail kvs ++ ['}'])))))
            ++ rest) = _
      have hre : ('{' :: '"' ::
              (escChars k.data ++ ('"' :: ':' :: (serVal v ++ (serFieldsTail kvs ++ ['}'])))))
            ++ rest =
          '{' :: '"' ::
            (escChars k.data ++
              ('"' :: (':' :: (serVal v ++ (serFieldsTail kvs ++ ('}' :: rest)))))) := by
        simp
      rw [hre]
      have hsz : sizeV (Json.obj ((k, v) :: kvs)) = 2 + sizeV v + sizeFields kvs := by
        simp [sizeV, sizeFields]; omega
      have hszv : 1 ≤ sizeV v := sizeV_pos v
      have hv : parseVal f (serVal v ++ (serFieldsTail kvs ++ ('}' :: rest))) =
          some (v, serFieldsTail kvs ++ ('}' :: rest)) :=
        parseVal_ser v f _ (by omega) (restOk_fields kvs rest)
      have hkvs : parseFields f (serFieldsTail kvs ++ ('}' :: rest)) = some (kvs, rest) :=
        parseFields_ser kvs f rest (by omega) hrest
      have hk : parseStrRaw
          (escChars k.data ++ ('"' :: (':' :: (serVal v ++ (serFieldsTail kvs ++ ('}' :: rest)))))) =
          some (k.data, ':' :: (serVal v ++ (serFieldsTail kvs ++ ('}' :: rest)))) :=
        parseStrRaw_esc k.data _
      simp [parseVal, hk, hv, hkvs]

theorem parseElems_ser (xs : List Json) (fuel : Nat) (rest : List Char)
    (hfuel : sizeElems xs < fuel) (hrest : restOk rest = true) :
    parseElems fuel (serElemsTail xs ++ (']' :: rest)) = some (xs, rest) := by
  obtain ⟨f, rfl⟩ : ∃ f, fuel = f + 1 := ⟨fuel - 1, by omega⟩
  cases xs with
  | nil =>
    show parseElems (f + 1) (']' :: rest) = _
    simp [parseElems]
  | cons x xs =>
    show parseElems (f + 1) ((',' :: (serVal x ++ serElemsTail xs)) ++ (']' :: rest)) = _
    have hre : (',' :: (serVal x ++ serElemsTail xs)) ++ (']' :: rest) =
        ',' :: (serVal x ++ (serElemsTail xs ++ (']' :: rest))) := by simp
    rw [hre]
    have hsz : sizeElems (x :: xs) = 1 + sizeV x + sizeElems xs := rfl
    have hszx : 1 ≤ sizeV x := sizeV_pos x
    have hx : parseVal f (serVal x ++ (serElemsTail xs ++ (']' :: rest))) =
        some (x, serElemsTail xs ++ (']' :: rest)) :=
      parseVal_ser x f _ (by omega) (restOk_elems xs rest)
    have hxs : parseElems f (serElemsTail xs ++ (']' :: rest)) = some (xs, rest) :=
      parseElems_ser xs f rest (by omega) hrest
    simp [parseElems, hx, hxs]

theorem parseFields_ser (kvs : List (String × Json)) (fuel : Nat) (rest : List Char)
    (hfuel : sizeFields kvs < fuel) (hrest : restOk rest = true) :
    parseFields fuel (serFieldsTail kvs ++ ('}' :: rest)) = some (kvs, rest) := by
  obtain ⟨f, rfl⟩ : ∃ f, fuel = f + 1 := ⟨fuel - 1, by omega⟩
  cases kvs with
  | nil =>
    show parseFields (f + 1) ('}' :: rest) = _
    simp [parseFields]
  | cons kv kvs =>
    obtain ⟨k, v⟩ := kv
    show parseFields (f + 1)
        ((',' :: '"' :: (escChars k.data ++ ('"' :: ':' :: (serVal v ++ serFieldsTail kvs))))
          ++ ('}' :: rest)) = _
    have hre : (',' :: '"' :: (escChars k.data ++ ('"' :: ':' :: (serVal v ++ serFieldsTail kvs))))
          ++ ('}' :: rest) =
        ',' :: '"' ::
          (escChars k.data ++ ('"' :: (':' :: (serVal v ++ (serFieldsTail kvs ++ ('}' :: rest)))))) := by
      simp
    rw [hre]
    have hsz : sizeFields ((k, v) :: kvs) = 1 + sizeV v + sizeFields kvs := rfl
    have hszv : 1 ≤ sizeV v := sizeV_pos v
    have hv : parseVal f (serVal v ++ (serFieldsTail kvs ++ ('}' :: rest))) =
        some (v, serFieldsTail kvs ++ ('}' :: rest)) :=
      parseVal_ser v f _ (by omega) (restOk_fields kvs rest)
    have hkvs : parseFields f (serFieldsTail kvs ++ ('}' :: rest)) = some (kvs, rest) :=
      parseFields_ser kvs f rest (by omega) hrest
    have hk : parseStrRaw
        (escChars k.data ++ ('"' :: (':' :: (serVal v ++ (serFieldsTail kvs ++ ('}' :: rest)))))) =
        some (k.data, ':' :: (serVal v ++ (serFieldsTail kvs ++ ('}' :: rest)))) :=
      parseStrRaw_esc k.data _
    simp [parseFields, hk, hv, hkvs]

end

mutual

theorem sizeV_le_length (v : Json) : sizeV v ≤ (serVal v).length := by
  cases v with
  | null => simp [sizeV, serVal]
  | bool b => cases b <;> simp [sizeV, serVal]
  | num n =>
    show sizeV (.num n) ≤ (intChars n).length
    simp only [sizeV]
    unfold intChars
    split
    · simp
    · have h := natChars_ne_nil n.toNat
      have := List.length_pos.mpr h
      omega
  | str s => simp [sizeV, serVal]
  | arr xs =>
    cases xs with
    | nil => simp [sizeV, sizeElems, serVal]
    | cons x xs =>
      have h1 := sizeV_le_length x
      have h2 := sizeElems_le_length xs
      simp only [sizeV, sizeElems, serVal, List.length_cons, List.length_append,
        List.length_singleton]
      omega
  | obj kvs =>
    cases kvs with
    | nil => simp [sizeV, sizeFields, serVal]
    | cons kv kvs =>
      obtain ⟨k, v⟩ := kv
      have h1 := sizeV_le_length v
      have h2 := sizeFields_le_length kvs
      simp only [sizeV, sizeFields, serVal, List.length_cons, List.length_append,
        List.length_singleton]
      omega

theorem sizeElems_le_length (xs : List Json) : sizeElems xs ≤ (serElemsTail xs).length := by
  cases xs with
  | nil => simp [sizeElems, serElemsTail]
  | cons x xs =>
    have h1 := sizeV_le_length x
    have h2 := sizeElems_le_length xs
    simp only [sizeElems, serElemsTail, List.length_cons, List.length_append]
    omega

theorem sizeFields_le_length (kvs : List (String × Json)) :
    sizeFields kvs ≤ (serFieldsTail kvs).length := by
  cases kvs with
  | nil => simp [sizeFields, serFieldsTail]
  | cons kv kvs =>
    obtain ⟨k, v⟩ := kv
    have h1 := sizeV_le_length v
    have h2 := sizeFields_le_length kvs
    simp only [sizeFields, serFieldsTail, List.length_cons, List.length_append]
    omega

end

/-- Parsing inverts serialization: the compact JSON output of any value
parses back to exactly that value. -/
theorem loads_serVal (v : Json) : loads (serVal v) = some v := by
  unfold loads
  have h := parseVal_ser v ((serVal v).length + 1) []
    (le_trans (sizeV_le_length v) (by omega)) rfl
  rw [List.append_nil] at h
  rw [h]

theorem serVal_injective {a b : Json} (h : serVal a = serVal b) : a = b := by
  have ha := loads_serVal a
  have hb := loads_serVal b
  rw [h, hb] at ha
  exact (Option.some.inj ha).symm

mutual

theorem exErr_toJson (p : Payload) : exErr (toJson p) = hasUnknown p := by
  cases p with
  | null => rfl
  | bool b => rfl
  | int n => rfl
  | str s => rfl
  | list xs =>
    have h := exErr_toJsonList xs
    simp only [toJson, hasUnknown]
    cases hx : toJsonList xs with
    | error e => rw [hx] at h; simpa [exErr] using h.symm
    | ok js => rw [hx] at h; simpa [exErr] using h.symm
  | dict kvs =>
    have h := exErr_toJsonFields kvs
    simp only [toJson, hasUnknown]
    cases hx : toJsonFields kvs with
    | error e => rw [hx] at h; simpa [exErr] using h.symm
    | ok fs => rw [hx] at h; simpa [exErr] using h.symm
  | pyobj o => cases o <;> rfl

theorem exErr_toJsonList (xs : List Payload) : exErr (toJsonList xs) = hasUnknownList xs := by
  cases xs with
  | nil => rfl
  | cons x xs =>
    have hx := exErr_toJson x
    have hxs := exErr_toJsonList xs
    simp only [toJsonList, hasUnknownList]
    cases h1 : toJson x with
    | error e => rw [h1] at hx; simp [exErr] at hx; simp [exErr, hx]
    | ok j =>
      rw [h1] at hx
      simp [exErr] at hx
      cases h2 : toJsonList xs with
      | error e => rw [h2] at hxs; simp [exErr] at hxs; simp [exErr, hx, hxs]
      | ok js => rw [h2] at hxs; simp [exErr] at hxs; simp [exErr, hx, hxs]

theorem exErr_toJsonFields (kvs : List (String × Payload)) :
    exErr (toJsonFields kvs) = hasUnknownFields kvs := by
  cases kvs with
  | nil => rfl
  | cons kv kvs =>
    obtain ⟨k, v⟩ := kv
    have hx := exErr_toJson v
    have hxs := exErr_toJsonFields kvs
    simp only [toJsonFields, hasUnknownFields]
    cases h1 : toJson v with
    | error e => rw [h1] at hx; simp [exErr] at hx; simp [exErr, hx]
    | ok j =>
      rw [h1] at hx
      simp [exErr] at hx
      cases h2 : toJsonFields kvs with
      | error e => rw [h2] at hxs; simp [exErr] at hxs; simp [exErr, hx, hxs]
      | ok fs => rw [h2] at hxs; simp [exErr] at hxs; simp [exErr, hx, hxs]

end

theorem dumps_error_of_hasUnknown (data : Payload) (h : hasUnknown data = true) :
    ∃ e, dumps data = .error e := by
  have he := exErr_toJson data
  rw [h] at he
  cases hj : toJson data with
  | error e => exact ⟨e, by simp [dumps, hj]⟩
  | ok j => rw [hj] at he; simp [exErr] at he

theorem findPortLoop_filter (e : Env) (l : List (Nat × StoreEntry)) (acc : Option Nat) :
    findPortLoop e l acc = (l.filter (matchesRoot e)).foldl (fun _ x => some x.1) acc := by
  induction l generalizing acc with
  | nil => rfl
  | cons pe rest ih =>
    obtain ⟨p, st⟩ := pe
    by_cases ha : e.alive p
    · by_cases hr : st.roots.any (fun root => is_relative_to e.cwd root)
      · simp [findPortLoop, ha, hr, matchesRoot, List.filter_cons, ih]
      · simp [findPortLoop, ha, hr, matchesRoot, List.filter_cons, ih]
    · simp [findPortLoop, ha, matchesRoot, List.filter_cons, ih]

theorem foldl_lastChoice (l : List (Nat × StoreEntry)) (acc : Option Nat) :
    l.foldl (fun _ x => some x.1) acc =
      match (l.map (fun x => x.1)).getLast? with
      | some p => some p
      | none => acc := by
  induction l generalizing acc with
  | nil => rfl
  | cons x xs ih =>
    simp only [List.foldl_cons, List.map_cons]
    rw [ih]
    cases hxs : xs.map (fun x => x.1) with
    | nil => simp
    | cons y ys =>
      rw [List.getLast?_cons_cons]
      cases hg : (y :: ys).getLast? with
      | some p => rfl
      | none =>
        rw [List.getLast?_eq_none_iff] at hg
        exact absurd hg (by simp)

theorem find_port_of_getLast (e : Env) (p : Nat)
    (h : ((e.store.filter (matchesRoot e)).map (fun x => x.1)).getLast? = some p) :
    find_port e = .ok p := by
  unfold find_port
  rw [findPortLoop_filter, foldl_lastChoice, h]

theorem findPortLoop_none (e : Env) (h : e.store.filter (matchesRoot e) = []) :
    findPortLoop e e.store none = none := by
  rw [findPortLoop_filter, h]
  rfl

/-- C1 (corrected): when a payload contains an object the default hook does
not recognize, the hook raises a `TypeError`, but `_send` catches it in its
broad `except` handler (comms.py line 141) and returns a null result; the
error is not propagated to the caller.  The same holds for all wrappers,
and when the port was already resolved. -/
theorem C1_serialization_error_swallowed (e : Env) (net : Network) (st : CommsState)
    (data : Payload) (mt : MessageType) (p : Nat) (h : hasUnknown data = true) :
    _send e net st data mt (some p) = .ok (st, none) ∧
    (st.INIT_DONE = true → _send e net st data mt none = .ok (st, none)) ∧
    send_data e net st data (some p) = .ok (st, none) ∧
    send_command e net st data (some p) = .ok (st, none) ∧
    send_backend e net st data (some p) = .ok (st, none) ∧
    send_response e net st data (some p) = .ok (st, none) := by
  obtain ⟨err, herr⟩ := dumps_error_of_hasUnknown data h
  have hsw : ∀ (mt' : MessageType) (p' : Nat), sendWithPort net data mt' p' = none := by
    intro mt' p'
    simp [sendWithPort, herr]
  refine ⟨by simp [_send, hsw], fun hinit => by simp [_send, hinit, hsw],
    by simp [send_data, _send, hsw], by simp [send_command, _send, hsw],
    by simp [send_backend, _send, hsw], by simp [send_response, _send, hsw]⟩

/-- C1 witness: a concrete dictionary payload holding an unrecognized
foreign object, sent over a live network with an explicit port, yields a
null result. -/
theorem C1_witness :
    hasUnknown badPayload = true ∧
    _send envNone netLive readyState badPayload MessageType.DATA (some 3939) =
      .ok (readyState, none) :=
  ⟨rfl, (C1_serialization_error_swallowed envNone netLive readyState badPayload
    MessageType.DATA 3939 rfl).1⟩

/-- C1 counterexample: the claim says the serialization error is raised to
the caller rather than a null result being returned.  At this concrete
input (an unrecognized object in the payload, a live network, an explicit
port) the call returns a successful null result, not an error. -/
theorem C1_counterexample :
    hasUnknown badPayload = true ∧
    _send envNone netLive readyState badPayload MessageType.DATA (some 3939) =
      .ok (readyState, none) ∧
    send_command envNone netLive readyState badPayload (some 3939) =
      .ok (readyState, none) :=
  ⟨rfl, rfl, rfl⟩

/-- C2 (corrected): during the root scan of `find_port`, the `break` exits
only the inner `for root` loop, so iteration over the store continues and a
later matching entry overwrites the `port` variable: the port of the LAST
alive entry whose roots contain the current directory is selected, not the
first, and selection is not immediate. -/
theorem C2_last_match_wins (e : Env) (p : Nat)
    (h : ((e.store.filter (matchesRoot e)).map (fun x => x.1)).getLast? = some p) :
    find_port e = .ok p :=
  find_port_of_getLast e p h

/-- C2 witness: in the double-match environment the matching entries are
1111 and 2222 in that order and `find_port` returns the last one. -/
theorem C2_witness :
    ((envTwoMatches.store.filter (matchesRoot envTwoMatches)).map
      (fun x => x.1)).getLast? = some 2222 ∧
    find_port envTwoMatches = .ok 2222 :=
  ⟨rfl, C2_last_match_wins envTwoMatches 2222 rfl⟩

/-- C2 counterexample: both store entries are alive and have a matching
root, entry 1111 comes first in store order, yet `find_port` selects 2222 —
first match does not win. -/
theorem C2_counterexample :
    matchesRoot envTwoMatches entryA = true ∧
    matchesRoot envTwoMatches entryB = true ∧
    envTwoMatches.store = [entryA, entryB] ∧
    entryA.1 = 1111 ∧
    find_port envTwoMatches = .ok 2222 ∧
    (2222 : Nat) ≠ 1111 :=
  ⟨rfl, rfl, rfl, rfl, rfl, by decide⟩

/-- C3 (confirmed): with no workspace-root match, `find_port` resolves a
single alive port, fails with the no-port configuration error when no port
is alive, and fails with the multiple-ports configuration error listing all
alive candidates when more than one is alive. -/
theorem C3_fallback_behavior (e : Env) (h : e.store.filter (matchesRoot e) = []) :
    (∀ p, aliveCandidates e = [p] → find_port e = .ok p) ∧
    (aliveCandidates e = [] → find_port e = .error ConfigErr.noPort) ∧
    (2 ≤ (aliveCandidates e).length →
      find_port e = .error (ConfigErr.multiplePorts (aliveCandidates e))) := by
  have hn : findPortLoop e e.store none = none := findPortLoop_none e h
  refine ⟨?_, ?_, ?_⟩
  · intro p hp
    unfold find_port
    rw [hn, hp]
  · intro hp
    unfold find_port
    rw [hn, hp]
  · intro hlen
    unfold find_port
    rw [hn]
    cases hc : aliveCandidates e with
    | nil => rw [hc] at hlen; simp at hlen
    | cons a rest =>
      cases rest with
      | nil => rw [hc] at hlen; simp at hlen
      | cons b rest2 => rfl

/-- C3 witness: the three fallback branches at concrete environments with
no root match: exactly one alive port resolves to it, zero alive ports
raise the no-port error, two alive ports raise the multiple-ports error
listing both candidates. -/
theorem C3_witness :
    find_port envOneAlive = .ok 4040 ∧
    find_port envZeroAlive = .error ConfigErr.noPort ∧
    find_port envTwoAlive = .error (ConfigErr.multiplePorts [4040, 5050]) :=
  ⟨(C3_fallback_behavior envOneAlive rfl).1 4040 rfl,
   (C3_fallback_behavior envZeroAlive rfl).2.1 rfl,
   (C3_fallback_behavior envTwoAlive rfl).2.2 (by decide)⟩

/-- C4 (confirmed): on a status message the dispatcher emits the callback
invocation carrying exactly the delta (the keys of the new snapshot absent
from the previous snapshot or with a different value) with kind UPDATES,
also when the delta is empty, and stores the full new snapshot; on the
worked example the delta is exactly b=3, c=4 and the stored snapshot
becomes the full new snapshot. -/
theorem C4_status_delta (message last_config changes : List (String × Json))
    (hcmd : List.lookup "command" message = some (Json.str "status"))
    (htext : List.lookup "text" message = some (Json.obj changes)) :
    (∃ pre, processMessage message last_config =
      some (pre ++ [(Json.obj (statusDelta last_config changes), MessageType.UPDATES)],
        changes)) ∧
    (∀ k v, (k, v) ∈ statusDelta last_config changes ↔
      (k, v) ∈ changes ∧ List.lookup k last_config ≠ some v) ∧
    statusDelta lastEx changesEx = [("b", Json.num 3), ("c", Json.num 4)] := by
  refine ⟨?_, ?_, by decide⟩
  · cases hm : List.lookup "model" message with
    | some m => exact ⟨[(m, MessageType.DATA)], by simp [processMessage, hm, hcmd, htext]⟩
    | none => exact ⟨[], by simp [processMessage, hm, hcmd, htext]⟩
  · intro k v
    simp [statusDelta, List.mem_filter]

/-- C4 witness: the worked example, dispatched as a real status message. -/
theorem C4_witness :
    statusDelta lastEx changesEx = [("b", Json.num 3), ("c", Json.num 4)] ∧
    (("b", Json.num 3) ∈ statusDelta lastEx changesEx ∧
      List.lookup "b" lastEx ≠ some (Json.num 3)) := by
  have h := C4_status_delta msgStatus lastEx changesEx rfl rfl
  exact ⟨h.2.2, (h.2.1 "b" (Json.num 3)).mpr ⟨by decide, by decide⟩, by decide⟩

/-- C5 (confirmed): a COMMAND send over a successful connection returns the
reply frame parsed as JSON; every other kind returns a null result without
consulting the reply; and a connection or send failure yields a null
result with no exception escaping (the result is an `Except.ok`). -/
theorem C5_transport_results (e : Env) (net : Network) (st : CommsState) (data : Payload)
    (mt : MessageType) (p : Nat) (jv : Json) :
    (toJson data = .ok jv → net.connectOk p = true →
      _send e net st data MessageType.COMMAND (some p) =
        .ok (st, loads (net.reply p (encodeFrame MessageType.COMMAND (serVal jv))))) ∧
    (mt ≠ MessageType.COMMAND → _send e net st data mt (some p) = .ok (st, none)) ∧
    (net.connectOk p = false → _send e net st data mt (some p) = .ok (st, none)) := by
  refine ⟨?_, ?_, ?_⟩
  · intro hj hc
    simp [_send, sendWithPort, dumps, hj, hc]
  · intro hmt
    have : sendWithPort net data mt p = none := by
      unfold sendWithPort
      cases hd : dumps data with
      | error err => rfl
      | ok j =>
        cases hcon : net.connectOk p <;> simp [hcon, hmt]
    simp [_send, this]
  · intro hc
    have : sendWithPort net data mt p = none := by
      unfold sendWithPort
      cases hd : dumps data with
      | error err => rfl
      | ok j => simp [hc]
    simp [_send, this]

/-- C5 witness: a command whose reply frame is the JSON object ok=true is
returned parsed; a DATA send returns null; a send to a dead port returns
null without an exception. -/
theorem C5_witness :
    _send envNone netOk readyState (Payload.int 1) MessageType.COMMAND (some 3939) =
      .ok (readyState, loads (netOk.reply 3939
        (encodeFrame MessageType.COMMAND (serVal (Json.num 1))))) ∧
    _send envNone netOk readyState (Payload.int 1) MessageType.DATA (some 3939) =
      .ok (readyState, none) ∧
    _send envNone netDead readyState (Payload.int 1) MessageType.COMMAND (some 3939) =
      .ok (readyState, none) ∧
    loads (netOk.reply 3939 (encodeFrame MessageType.COMMAND (serVal (Json.num 1)))) =
      some (Json.obj [("ok", Json.bool true)]) := by
  have h1 := (C5_transport_results envNone netOk readyState (Payload.int 1)
    MessageType.COMMAND 3939 (Json.num 1)).1 rfl rfl
  have h2 := (C5_transport_results envNone netOk readyState (Payload.int 1)
    MessageType.DATA 3939 (Json.num 1)).2.1 (by decide)
  have h3 := (C5_transport_results envNone netDead readyState (Payload.int 1)
    MessageType.COMMAND 3939 (Json.num 1)).2.2 rfl
  exact ⟨h1, h2, h3, loads_serVal (Json.obj [("ok", Json.bool true)])⟩

/-- C6 (corrected): the listener opens its connection on the cached port
with the enlarged maximum frame size `2 ** 28` and immediately sends the
raw registration frame with kind tag `L`, but the payload is the literal
text `register`, not `listen`; the payload is raw bytes, not JSON. -/
theorem C6_registration (st : CommsState) :
    listenStart st = ⟨st.CMD_PORT, 2 ^ 28, 'L' :: ':' :: "register".data⟩ ∧
    (listenStart st).regFrame.take 2 = ['L', ':'] ∧
    (listenStart st).regFrame.drop 2 = "register".data ∧
    (listenStart st).max_size = 2 ^ 28 ∧
    loads ((listenStart st).regFrame.drop 2) = none :=
  ⟨rfl, rfl, rfl, rfl, rfl⟩

/-- C6 counterexample: the registration frame is `L:register`; its payload
is not the literal text `listen` asserted by the claim. -/
theorem C6_counterexample :
    (listenStart initialState).regFrame = "L:register".data ∧
    (listenStart initialState).regFrame.drop 2 ≠ "listen".data :=
  ⟨rfl, by decide⟩

/-- C7 (corrected): the port is resolved at the first `get_port` call and
at the first `_send` call with no explicit port while `INIT_DONE` is unset,
and once resolved or set via `set_port` the cached port is reused by
`get_port`, `_send` and the listener without re-resolution; but the
listener itself never resolves the port: `_listen` connects to the current
`CMD_PORT` (default 3939) even when no port has been set. -/
theorem C7_port_caching (e : Env) (net : Network) (st : CommsState) (data : Payload)
    (mt : MessageType) (p : Nat) :
    get_port e (set_port p st) = .ok (set_port p st, p) ∧
    _send e net (set_port p st) data mt none =
      .ok (set_port p st, sendWithPort net data mt p) ∧
    (listenStart (set_port p st)).port = p ∧
    (listenStart st).port = st.CMD_PORT ∧
    (st.INIT_DONE = false →
      _send e net st data mt none =
        (find_and_set_port e st).map (fun st2 => (st2, sendWithPort net data mt st2.CMD_PORT))) ∧
    (st.INIT_DONE = false →
      get_port e st = (find_and_set_port e st).map (fun st2 => (st2, st2.CMD_PORT))) := by
  refine ⟨rfl, rfl, rfl, rfl, ?_, ?_⟩
  · intro hinit
    simp only [_send, hinit]
    cases find_and_set_port e st <;> simp [Except.map]
  · intro hinit
    simp only [get_port, hinit]
    cases find_and_set_port e st <;> simp [Except.map]

/-- C7 witness: a state with the port explicitly set returns the cached
port from `get_port` without consulting the environment; a fresh state
resolves through the environment override on first `get_port`. -/
theorem C7_witness :
    get_port envOverride (set_port 1234 initialState) =
      .ok (set_port 1234 initialState, 1234) ∧
    get_port envOverride initialState = .ok (⟨7777, true⟩, 7777) := by
  have h := C7_port_caching envOverride netDead initialState Payload.null MessageType.DATA 1234
  refine ⟨h.1, ?_⟩
  rw [h.2.2.2.2.2 rfl]
  rfl

/-- C7 counterexample: with no port set (`INIT_DONE` false) and an
environment override that resolution would return (7777), the listener
still connects to the default cached port 3939: the first listen call does
not discover the port. -/
theorem C7_counterexample :
    initialState.INIT_DONE = false ∧
    (listenStart initialState).port = 3939 ∧
    find_and_set_port envOverride initialState = .ok ⟨7777, true⟩ ∧
    (3939 : Nat) ≠ 7777 :=
  ⟨rfl, rfl, rfl, by decide⟩

/-- C8 (confirmed): for every JSON payload (in the integer-numbered model)
and each of the six tagged kinds, dropping the two-byte kind prefix of the
encoded frame and JSON-decoding the remainder yields the original
payload. -/
theorem C8_roundtrip (payload : Json) (mt : MessageType) (h : taggedKind mt = true) :
    loads ((encodeFrame mt (serVal payload)).drop 2) = some payload := by
  cases mt <;> first
    | exact absurd h (by decide)
    | simp [encodeFrame, loads_serVal]

/-- C8 witness: the round trip at a nested payload with escapes and a
negative number, under the DATA kind. -/
theorem C8_witness :
    taggedKind MessageType.DATA = true ∧
    loads ((encodeFrame MessageType.DATA (serVal jsonEx)).drop 2) = some jsonEx :=
  ⟨rfl, C8_roundtrip jsonEx MessageType.DATA rfl⟩

/-- C9 (confirmed): the two dispatch branches of `_listen` are independent
`if` statements, so a message that both contains a "model" key and has
"command" equal to "status" triggers the callback twice: first with the
model payload and kind DATA, then with the status delta and kind
UPDATES. -/
theorem C9_double_dispatch (message last_config changes : List (String × Json)) (m : Json)
    (hm : List.lookup "model" message = some m)
    (hcmd : List.lookup "command" message = some (Json.str "status"))
    (htext : List.lookup "text" message = some (Json.obj changes)) :
    processMessage message last_config =
      some ([(m, MessageType.DATA),
        (Json.obj (statusDelta last_config changes), MessageType.UPDATES)], changes) := by
  simp [processMessage, hm, hcmd, htext]

/-- C9 witness: a concrete message with both a model and a status command
produces exactly the two callback invocations in order. -/
theorem C9_witness :
    processMessage msgBoth [] =
      some ([(Json.num 5, MessageType.DATA),
        (Json.obj (statusDelta [] [("k", Json.num 1)]), MessageType.UPDATES)],
        [("k", Json.num 1)]) :=
  C9_double_dispatch msgBoth [] [("k", Json.num 1)] (Json.num 5) rfl rfl rfl

/-- C10 (confirmed): for a message type outside the six tagged kinds (the
only such type is UPDATES) the if/elif chain of `_send` adds no prefix at
all: the frame is exactly the bare JSON bytes, with no tag and no
separator. -/
theorem C10_untagged_frame (mt : MessageType) (h : taggedKind mt = false) (j : List Char) :
    encodeFrame mt j = j := by
  cases mt <;> first
    | rfl
    | exact absurd h (by decide)

/-- C10 witness: an UPDATES frame is the bare JSON encoding of the
payload. -/
theorem C10_witness :
    taggedKind MessageType.UPDATES = false ∧
    encodeFrame MessageType.UPDATES (serVal (Json.num 7)) = serVal (Json.num 7) :=
  ⟨rfl, C10_untagged_frame MessageType.UPDATES rfl (serVal (Json.num 7))⟩

end Comms
